import Mathlib

/-!
# swift-qdl: the C bridge `qdl-bridge.h`

A verification development for the C-callable surface of the qdl flashing
engine.  The header declares three enums, one record, one callback type and
four functions.  The declarations are embedded as data (enumerator lists and
field lists, in declaration order) and given their C meaning by small
evaluators: the enumerator-value rule of C and the member-placement rule used
for records.  The functions are only declared in the header; their bodies are
modelled from the specification and marked as such.
-/

namespace QdlBridge

/-! ## C declarations as data -/

/-- One enumerator of a C `enum` declaration: the identifier and, when the
declaration writes `= v`, the explicit value. -/
structure Enumerator where
  ident : String
  explicit : Option Int
deriving DecidableEq, Repr

/-- The C rule for enumerator values: an enumerator with `= v` has value `v`,
one without has the value of its predecessor plus one, and the first one
without an explicit value is `0`.  `next` is the value an enumerator without
explicit value would receive. -/
def enumConstantsFrom : Int → List Enumerator → List (String × Int)
  | _, [] => []
  | next, e :: es =>
    let v := e.explicit.getD next
    (e.ident, v) :: enumConstantsFrom (v + 1) es

/-- The constants an `enum` declaration introduces, in declaration order. -/
def enumConstants (decl : List Enumerator) : List (String × Int) :=
  enumConstantsFrom 0 decl

/-- The value of one enumeration constant of a declaration, if it is declared. -/
def enumConstant? (decl : List Enumerator) (ident : String) : Option Int :=
  (enumConstants decl).lookup ident

/-- The object types the header uses in record members. -/
inductive CType where
  | char
  | array (elem : CType) (count : Nat)
deriving DecidableEq, Repr

/-- The `sizeof` of a type, in bytes (`sizeof(char)` is 1 by definition). -/
def CType.sizeof : CType → Nat
  | .char => 1
  | .array elem count => count * elem.sizeof

/-- The alignment requirement of a type, in bytes; an array is aligned as its
element. -/
def CType.alignof : CType → Nat
  | .char => 1
  | .array elem _ => elem.alignof

/-- One member of a C `struct` declaration. -/
structure Member where
  ident : String
  type : CType
deriving DecidableEq, Repr

/-- Rounds `n` up to the next multiple of `a`. -/
def alignUp (n a : Nat) : Nat :=
  (n + a - 1) / a * a

/-- Member placement: every member goes to the first offset at or after the
end of its predecessor that satisfies its alignment.  `off` is the end of the
members placed so far.  The result lists each member with its byte offset. -/
def memberOffsetsFrom : Nat → List Member → List (String × Nat)
  | _, [] => []
  | off, m :: ms =>
    let at_ := alignUp off m.type.alignof
    (m.ident, at_) :: memberOffsetsFrom (at_ + m.type.sizeof) ms

/-- The byte offsets of the members of a record. -/
def memberOffsets (decl : List Member) : List (String × Nat) :=
  memberOffsetsFrom 0 decl

/-- The end of the last member when the members are placed from `off`. -/
def membersEndFrom : Nat → List Member → Nat
  | off, [] => off
  | off, m :: ms => membersEndFrom (alignUp off m.type.alignof + m.type.sizeof) ms

/-- The alignment of a record: the largest alignment among its members. -/
def structAlign (decl : List Member) : Nat :=
  decl.foldl (fun a m => max a m.type.alignof) 1

/-- The `sizeof` of a record: the end of its last member, rounded up to the
record's alignment. -/
def structSizeof (decl : List Member) : Nat :=
  alignUp (membersEndFrom 0 decl) (structAlign decl)

/-- A NUL-terminated text of `len` bytes fits an object of type `t` when the
text and its terminator together do not exceed the size of the object. -/
def fitsCString (len : Nat) (t : CType) : Prop :=
  len + 1 ≤ t.sizeof

instance (len : Nat) (t : CType) : Decidable (fitsCString len t) := by
  unfold fitsCString; infer_instance

/-! ## The declarations of `qdl-bridge.h` -/

/-- Declaration `enum qdl_storage_type { QDL_STORAGE_UNKNOWN, ..., QDL_STORAGE_SPINOR, };` -/
def qdl_storage_type : List Enumerator :=
  [ ⟨"QDL_STORAGE_UNKNOWN", none⟩,
    ⟨"QDL_STORAGE_EMMC", none⟩,
    ⟨"QDL_STORAGE_NAND", none⟩,
    ⟨"QDL_STORAGE_UFS", none⟩,
    ⟨"QDL_STORAGE_NVME", none⟩,
    ⟨"QDL_STORAGE_SPINOR", none⟩ ]

/-- Declaration `typedef struct { char serial[64]; char product[64]; } qdl_device_info_t;` -/
def qdl_device_info_t : List Member :=
  [ ⟨"serial", .array .char 64⟩,
    ⟨"product", .array .char 64⟩ ]

/-- Declaration `typedef enum { QDL_MODE_FLASH, QDL_MODE_PROVISION } qdl_mode_t;` -/
def qdl_mode_t : List Enumerator :=
  [ ⟨"QDL_MODE_FLASH", none⟩,
    ⟨"QDL_MODE_PROVISION", none⟩ ]

/-- Declaration `typedef enum { QDL_OK = 0, QDL_ERR_GENERIC = -1, ... } qdl_error_t;` -/
def qdl_error_t : List Enumerator :=
  [ ⟨"QDL_OK", some 0⟩,
    ⟨"QDL_ERR_GENERIC", some (-1)⟩,
    ⟨"QDL_ERR_DEVICE_NOT_FOUND", some (-2)⟩,
    ⟨"QDL_ERR_FLASH_FAILED", some (-3)⟩,
    ⟨"QDL_ERR_PROVISION_FAILED", some (-4)⟩ ]

/-- The value of an enumeration constant as the `int` a C expression sees. -/
def enumValue (decl : List Enumerator) (ident : String) : Int :=
  (enumConstant? decl ident).getD 0

def QDL_MODE_FLASH : Int := enumValue qdl_mode_t "QDL_MODE_FLASH"
def QDL_MODE_PROVISION : Int := enumValue qdl_mode_t "QDL_MODE_PROVISION"

def QDL_OK : Int := enumValue qdl_error_t "QDL_OK"
def QDL_ERR_GENERIC : Int := enumValue qdl_error_t "QDL_ERR_GENERIC"
def QDL_ERR_DEVICE_NOT_FOUND : Int := enumValue qdl_error_t "QDL_ERR_DEVICE_NOT_FOUND"
def QDL_ERR_FLASH_FAILED : Int := enumValue qdl_error_t "QDL_ERR_FLASH_FAILED"
def QDL_ERR_PROVISION_FAILED : Int := enumValue qdl_error_t "QDL_ERR_PROVISION_FAILED"

/-! ## Device registry -/

/-- Modelled from the spec: the Device identity record of the data model,
`{serial, product}`; the transport handle is represented by the record's
position in the scan. -/
structure Device where
  serial : String
  product : String
deriving DecidableEq, Repr

/-- A value of the record `qdl_device_info_t`: the bytes of its two character
arrays. -/
structure DeviceInfo where
  serial : List Nat
  product : List Nat
deriving DecidableEq, Repr

instance : Inhabited DeviceInfo := ⟨⟨[], []⟩⟩

/-- The bytes of a text, in UTF-8, as a C string holds them. -/
def textBytes (text : String) : List Nat :=
  text.toUTF8.data.toList.map UInt8.toNat

/-- Stores a text, given by its bytes, as a NUL-terminated string in a
character array of `cap` bytes: the text is cut to `cap - 1` bytes and the
rest of the array is NUL. -/
def storeCString (cap : Nat) (text : List Nat) : List Nat :=
  let kept := text.take (cap - 1)
  kept ++ List.replicate (cap - kept.length) 0

/-- The record written for one device: serial and product, each stored in the
array the header declares for it. -/
def deviceInfoOf (d : Device) : DeviceInfo :=
  ⟨storeCString (CType.array .char 64).sizeof (textBytes d.serial),
   storeCString (CType.array .char 64).sizeof (textBytes d.product)⟩

/-- Writes the records of `found` to consecutive entries of the output array,
starting at entry `i`.  The output array is the caller's memory, indexed by
entry. -/
def writeEntries : List Device → Nat → (Nat → DeviceInfo) → (Nat → DeviceInfo)
  | [], _, buf => buf
  | d :: ds, i, buf => writeEntries ds (i + 1) (Function.update buf i (deviceInfoOf d))

/-- Modelled from the spec: the body of `qdl_list_devices`, which the header
only declares.  The spec gives it as "list_devices(capacity) → ordered
sequence of Device, truncated at capacity", filling up to `max_count` entries
and returning the actual count, which is never negative.  `scan` is the
point-in-time transport scan; the result is the returned count and the output
array after the call. -/
def qdl_list_devices (scan : List Device) (devices : Nat → DeviceInfo) (max_devices : Int) :
    Int × (Nat → DeviceInfo) :=
  let found := scan.take max_devices.toNat
  ((found.length : Int), writeEntries found 0 devices)

/-- Modelled from the spec: `resolve(serial) → Device or NotFound` of the
device registry.  A null or empty serial selects the first device found; any
other serial selects the first device whose serial equals it. -/
def resolve (scan : List Device) (serial : Option String) : Option Device :=
  match serial with
  | none => scan.head?
  | some s => if s = "" then scan.head? else scan.find? (fun d => d.serial = s)

/-! ## Progress broadcaster -/

/-- Modelled from the spec: the ProgressEvent of the data model,
`{task name, value, total}`. -/
structure ProgressEvent where
  task : String
  value : Nat
  total : Nat
deriving DecidableEq, Repr

/-- Declaration `typedef void (*qdl_progress_cb_t)(const char *task, unsigned
int value, unsigned int total, void *userdata);`.  The callback returns
nothing; what it does is a change of the observer's state `σ`.  `userdata` is
the pointer the registrant passed.  `value` and `total` are `unsigned int`:
the callback only ever receives values below `2 ^ 32` (see `forward`). -/
def qdl_progress_cb_t (σ : Type) : Type :=
  String → Nat → Nat → Nat → σ → σ

/-- Conversion of a natural number to `unsigned int` (32 bits), as C performs
it when a wider value is passed for an `unsigned int` parameter. -/
def toUnsignedInt (n : Nat) : Nat :=
  n % 2 ^ 32

/-- The arguments the callback is called with for an event: the task name and
the event's value and total as `unsigned int`. -/
def callArgs (ev : ProgressEvent) : String × Nat × Nat :=
  (ev.task, toUnsignedInt ev.value, toUnsignedInt ev.total)

/-- The calls a sequence of events makes to a registered callback, in order. -/
def delivered (evs : List ProgressEvent) : List (String × Nat × Nat) :=
  evs.map callArgs

/-- The process-wide registration slot: an optional (callback, userdata) pair. -/
def ProgressSlot (σ : Type) : Type :=
  Option (qdl_progress_cb_t σ × Nat)

/-- Modelled from the spec: the body of `qdl_set_progress_callback`, which the
header only declares: the call replaces the registered pair, and a NULL
callback (here `none`) clears it. -/
def qdl_set_progress_callback {σ : Type} (cb : Option (qdl_progress_cb_t σ)) (userdata : Nat)
    (_slot : ProgressSlot σ) : ProgressSlot σ :=
  match cb with
  | none => none
  | some f => some (f, userdata)

/-- Modelled from the spec: forwarding of one event: the event goes to the
registered callback if there is one, and is dropped otherwise. -/
def forward {σ : Type} (slot : ProgressSlot σ) (ev : ProgressEvent) (obs : σ) : σ :=
  match slot with
  | none => obs
  | some (f, userdata) =>
    f (callArgs ev).1 (callArgs ev).2.1 (callArgs ev).2.2 userdata obs

/-- Forwards a sequence of events in order. -/
def forwardAll {σ : Type} (slot : ProgressSlot σ) : List ProgressEvent → σ → σ
  | [], obs => obs
  | ev :: evs, obs => forwardAll slot evs (forward slot ev obs)

/-- A callback that records every call it receives, for concrete runs. -/
def recordingCallback : qdl_progress_cb_t (List (String × Nat × Nat × Nat)) :=
  fun task value total userdata log => log ++ [(task, value, total, userdata)]

/-! ## Session data -/

/-- Modelled from the spec: the mode of a session, `mode ∈ {Flash, Provision}`. -/
inductive Mode where
  | Flash
  | Provision
deriving DecidableEq, Repr

/-- The `qdl_mode_t` constant that selects a mode. -/
def Mode.toInt : Mode → Int
  | .Flash => QDL_MODE_FLASH
  | .Provision => QDL_MODE_PROVISION

/-- Modelled from the spec: the storage types a session can name,
`{Unknown, eMMC, NAND, UFS, NVMe, SPI-NOR}`. -/
inductive StorageType where
  | Unknown
  | eMMC
  | NAND
  | UFS
  | NVMe
  | SPINOR
deriving DecidableEq, Repr

/-- The kinds of script directive the spec names. -/
inductive OpKind where
  | program
  | erase
  | patch
  | other
deriving DecidableEq, Repr

/-- A directive as a script declares it: kind, target name, byte range and,
for directives with a payload, the referenced image file name. -/
structure Directive where
  kind : OpKind
  label : String
  start : Nat
  size : Nat
  image : Option String
deriving DecidableEq, Repr

/-- A script source after XML decoding: the directory it lies in and its
directives in declaration order. -/
structure Script where
  dir : String
  directives : List Directive
deriving DecidableEq, Repr

/-- Modelled from the spec: the FlashOperation of the data model: kind, target
range, resolved source image, expected size, and the "skip-if-absent" tag. -/
structure FlashOperation where
  kind : OpKind
  label : String
  start : Nat
  size : Nat
  image : Option String
  skipIfAbsent : Bool
deriving DecidableEq, Repr

/-- What a read of the channel yields during the Sahara phase. -/
inductive SaharaInput where
  | hello (wellFormed : Bool)
  | readData (image : Nat)
  | endOfImage (success : Bool)
  | unexpected
  | transportError
deriving DecidableEq, Repr

/-- Why a protocol phase failed: the device rejected or mismatched, or the
transport failed. -/
inductive FailureReason where
  | rejected
  | transport
deriving DecidableEq, Repr

/-- Modelled from the spec: the states of the Sahara handshake,
`Idle → AwaitingHello → Negotiating → ImageUpload → HandoffComplete`, with
terminal states `HandoffComplete` and `Failed`. -/
inductive SaharaState where
  | Idle
  | AwaitingHello
  | Negotiating
  | ImageUpload
  | HandoffComplete
  | Failed (why : FailureReason)
deriving DecidableEq, Repr

/-- A device response to a Firehose command: acknowledged, rejected (with the
failure class "file/target not found" or another), or no response because the
transport failed; a response may carry a log line. -/
inductive Response where
  | ack (log : Option String)
  | nak (notFound : Bool) (log : Option String)
  | transportError
deriving DecidableEq, Repr

/-- Everything outside the engine that a run depends on: the attached devices,
the file system as the interpreter sees it, the geometry table and engine
defaults (constants the spec names without giving values), and the behaviour
of the device on the channel. -/
structure World where
  attached : List Device
  readScript : String → Option Script
  imageExists : String → String → Bool
  blockSize : StorageType → Nat
  defaultChunk : Nat
  deviceVanishes : Device → Bool
  programmerImage : Nat
  saharaInputs : List SaharaInput
  configureResponse : Response
  maxPayload : Nat
  writeOk : Nat → Nat → Bool
  respond : Nat → Response

/-! ## Program script interpreter -/

/-- Modelled from the spec: image resolution, "against include_dir and the
script's own directory, in that precedence order".  The result is the
directory the image was found in. -/
def resolveImage (w : World) (include_dir : Option String) (scriptDir file : String) :
    Option String :=
  match include_dir with
  | some d => if w.imageExists d file then some d
              else if w.imageExists scriptDir file then some scriptDir else none
  | none => if w.imageExists scriptDir file then some scriptDir else none

/-- Modelled from the spec: one directive becomes one FlashOperation, or a
parse error (`none`): a byte range not aligned to the storage geometry is a
construction-time error; a missing referenced image is a parse error unless
`allow_missing`, which tags the operation "skip-if-absent" instead. -/
def parseDirective (w : World) (storage : StorageType) (allow_missing : Bool)
    (include_dir : Option String) (scriptDir : String) (d : Directive) : Option FlashOperation :=
  if d.start % w.blockSize storage = 0 ∧ d.size % w.blockSize storage = 0 then
    match d.image with
    | none => some ⟨d.kind, d.label, d.start, d.size, none, false⟩
    | some file =>
      match resolveImage w include_dir scriptDir file with
      | some dir => some ⟨d.kind, d.label, d.start, d.size, some (dir ++ "/" ++ file), false⟩
      | none =>
        if allow_missing then some ⟨d.kind, d.label, d.start, d.size, none, true⟩ else none
  else none

/-- Modelled from the spec: `parse(xml_files, include_dir)`: the operations of
all scripts, in declaration order across the scripts in the caller's order, or
a parse error (`none`) when a script is malformed or a directive is refused. -/
def parse (w : World) (storage : StorageType) (allow_missing : Bool)
    (include_dir : Option String) : List String → Option (List FlashOperation)
  | [] => some []
  | path :: rest =>
    match w.readScript path with
    | none => none
    | some script =>
      match script.directives.mapM (parseDirective w storage allow_missing include_dir script.dir) with
      | none => none
      | some ops =>
        match parse w storage allow_missing include_dir rest with
        | none => none
        | some more => some (ops ++ more)

/-! ## Sahara handshake -/

/-- Modelled from the spec: one transition of the Sahara handshake on one read
of the channel.  A well-formed hello leads to negotiation; during image upload
the device requests chunks of the programmer image until it signals
completion; a malformed hello, an unexpected command, a transport error or a
request for an image the host does not serve is fatal. -/
def saharaStep (programmerImage : Nat) : SaharaState → SaharaInput → SaharaState
  | _, .transportError => .Failed .transport
  | .AwaitingHello, .hello true => .Negotiating
  | .ImageUpload, .readData image =>
    if image = programmerImage then .ImageUpload else .Failed .rejected
  | .ImageUpload, .endOfImage true => .HandoffComplete
  | _, _ => .Failed .rejected

/-- The transitions the host makes without reading: entering the handshake
moves `Idle` to `AwaitingHello`, and in `Negotiating` the host answers with
the image it serves and moves to `ImageUpload`. -/
def saharaAdvance : SaharaState → SaharaState
  | .Idle => .AwaitingHello
  | .Negotiating => .ImageUpload
  | s => s

/-- Modelled from the spec: the handshake run over the reads the channel
yields.  Terminal states end the run; a read that finds nothing left on the
channel times out, which is a transport error. -/
def saharaRun (programmerImage : Nat) : SaharaState → List SaharaInput → SaharaState
  | s, [] =>
    match saharaAdvance s with
    | .HandoffComplete => .HandoffComplete
    | .Failed why => .Failed why
    | _ => .Failed .transport
  | s, i :: inputs =>
    match saharaAdvance s with
    | .HandoffComplete => .HandoffComplete
    | .Failed why => .Failed why
    | s' => saharaRun programmerImage (saharaStep programmerImage s' i) inputs

/-! ## Transfer pump -/

/-- Modelled from the spec: the chunk size of a transfer: the requested
`out_chunk_size`, or the engine default when that is 0, or the
protocol-mandated size if that is smaller. -/
def effectiveChunk (w : World) (out_chunk_size : Nat) : Nat :=
  min (if out_chunk_size = 0 then w.defaultChunk else out_chunk_size) w.maxPayload

/-- Modelled from the spec: the transfer loop of one `program` operation of
`total` bytes.  The image is sent chunk by chunk (a full chunk, or what
remains), and after every chunk one event is emitted with the bytes sent so
far; the loop ends when nothing remains.  An image of 0 bytes is sent as one
empty chunk, so that every operation that completes reports `value == total`,
as the pump guarantees.  A chunk size of 0 with bytes remaining, or a failed
write, ends the loop with a failure.  `writeOk sent` tells whether the write
at offset `sent` succeeds.  The result is the emitted events and whether all
bytes were sent.  The first argument bounds the number of iterations. -/
def pumpLoop (task : String) (total chunk : Nat) (writeOk : Nat → Bool) :
    Nat → Nat → List ProgressEvent × Bool
  | 0, _ => ([], false)
  | fuel + 1, sent =>
    if min chunk (total - sent) = 0 ∧ sent < total then ([], false)
    else if writeOk sent then
      if total ≤ sent + min chunk (total - sent) then
        ([⟨task, sent + min chunk (total - sent), total⟩], true)
      else
        let r := pumpLoop task total chunk writeOk fuel (sent + min chunk (total - sent))
        (⟨task, sent + min chunk (total - sent), total⟩ :: r.1, r.2)
    else ([], false)

/-- Modelled from the spec: the transfer pump for one `program` operation:
task = operation name, value = bytes sent so far, total = operation byte
size, one event per chunk.  Every iteration but the last sends at least one
byte, so `total + 1` iterations are enough. -/
def pump (task : String) (total chunk : Nat) (writeOk : Nat → Bool) :
    List ProgressEvent × Bool :=
  pumpLoop task total chunk writeOk (total + 1) 0

/-! ## Firehose protocol engine -/

/-- A log line of a device response, surfaced as an advisory event with
value = total = 0. -/
def logEvents : Option String → List ProgressEvent
  | none => []
  | some line => [⟨line, 0, 0⟩]

/-- How the dispatch of one operation ends. -/
inductive OpResult where
  | done
  | skipped
  | failed (why : FailureReason)
deriving DecidableEq, Repr

/-- Modelled from the spec: what follows the device response to an operation:
success, or on a failure response abort, unless the operation is tagged
"skip-if-absent" and the failure class is "file/target not found", in which
case it is logged and skipped. -/
def afterResponse (op : FlashOperation) : Response → List ProgressEvent × OpResult
  | .ack log => (logEvents log, .done)
  | .nak notFound log =>
    if op.skipIfAbsent ∧ notFound then (logEvents log ++ [⟨op.label, 0, 0⟩], .skipped)
    else (logEvents log, .failed .rejected)
  | .transportError => ([], .failed .transport)

/-- Modelled from the spec: dispatch of operation number `i`.  An operation
tagged "skip-if-absent" has no image to send: it is logged by an advisory
event and skipped.  A `program` operation sends its command and then the
payload through the transfer pump, and awaits the response; any other
operation sends its command and awaits the response. -/
def execute (w : World) (chunk : Nat) (i : Nat) (op : FlashOperation) :
    List ProgressEvent × OpResult :=
  if op.skipIfAbsent ∧ op.image = none then ([⟨op.label, 0, 0⟩], .skipped)
  else
    match op.kind with
    | .program =>
      let sent := pump op.label op.size chunk (w.writeOk i)
      if sent.2 then
        let r := afterResponse op (w.respond i)
        (sent.1 ++ r.1, r.2)
      else (sent.1, .failed .transport)
    | _ => afterResponse op (w.respond i)

/-- Modelled from the spec: the operations are dispatched one at a time, in
order; the first failure aborts the session, a skipped operation does not.
The result is the emitted events and the failure, if any. -/
def dispatch (w : World) (chunk : Nat) : Nat → List FlashOperation →
    List ProgressEvent × Option FailureReason
  | _, [] => ([], none)
  | i, op :: ops =>
    let r := execute w chunk i op
    match r.2 with
    | .failed why => (r.1, some why)
    | _ =>
      let rest := dispatch w chunk (i + 1) ops
      (r.1 ++ rest.1, rest.2)

/-! ## The run -/

/-- The subsystem in which a protocol failure arose. -/
inductive Subsystem where
  | sahara
  | configure
  | directive
deriving DecidableEq, Repr

/-- Modelled from the spec: the error taxonomy of a session: DeviceNotFound,
ParseFailure, TransportFailure (before or after Firehose framing has begun)
and ProtocolFailure. -/
inductive Failure where
  | deviceNotFound
  | parse
  | transport (afterFraming : Bool)
  | protocol (sub : Subsystem)
deriving DecidableEq, Repr

/-- The status a protocol failure surfaces as: selected by the mode. -/
def modeFailure : Mode → Int
  | .Flash => QDL_ERR_FLASH_FAILED
  | .Provision => QDL_ERR_PROVISION_FAILED

/-- Modelled from the spec: the status code of a finished session, after the
error taxonomy: DeviceNotFound is `ERR_DEVICE_NOT_FOUND`, ProtocolFailure is
the mode's code, ParseFailure is `ERR_GENERIC`, TransportFailure is
`ERR_GENERIC` unless Firehose framing has begun, when it counts as a protocol
failure of the mode in progress. -/
def statusOf (mode : Mode) : Option Failure → Int
  | none => QDL_OK
  | some .deviceNotFound => QDL_ERR_DEVICE_NOT_FOUND
  | some .parse => QDL_ERR_GENERIC
  | some (.transport false) => QDL_ERR_GENERIC
  | some (.transport true) => modeFailure mode
  | some (.protocol _) => modeFailure mode

/-- The failure of a Firehose-phase step, by its reason. -/
def firehoseFailure (sub : Subsystem) : FailureReason → Failure
  | .rejected => .protocol sub
  | .transport => .transport true

/-- Modelled from the spec: one session, in the order of the control flow:
the registry resolves the serial (no channel is opened); the interpreter
parses the scripts (before any device I/O); the channel is opened (the device
may have vanished); the Sahara handshake runs; Firehose sends `configure` and
awaits the acknowledgement; the operations are dispatched.  The result is the
events emitted, in order, and the failure that ended the session, if any. -/
def session (w : World) (serial : Option String) (storage_type : StorageType)
    (xml_files : List String) (allow_missing : Bool) (include_dir : Option String)
    (out_chunk_size : Nat) : List ProgressEvent × Option Failure :=
  match resolve w.attached serial with
  | none => ([], some .deviceNotFound)
  | some dev =>
    match parse w storage_type allow_missing include_dir xml_files with
    | none => ([], some .parse)
    | some ops =>
      if w.deviceVanishes dev then ([], some .deviceNotFound)
      else
        match saharaRun w.programmerImage .Idle w.saharaInputs with
        | .HandoffComplete =>
          match w.configureResponse with
          | .ack log =>
            let r := dispatch w (effectiveChunk w out_chunk_size) 0 ops
            (logEvents log ++ r.1, r.2.map (firehoseFailure .directive))
          | .nak _ log => (logEvents log, some (.protocol .configure))
          | .transportError => ([], some (.transport true))
        | .Failed .rejected => ([], some (.protocol .sahara))
        | _ => ([], some (.transport false))

/-- Modelled from the spec: the body of `qdl_run`, which the header only
declares.  `xml_files` is the caller's array and `xml_file_count` the number
of its entries that are read; `serial` and `include_dir` may be NULL (`none`);
`prog_mbn` names the programmer image served during the handshake.  The
session's events are forwarded to the registered callback; the result is the
status and the observer's state after the run. -/
def qdl_run {σ : Type} (w : World) (slot : ProgressSlot σ) (obs : σ)
    (mode : Mode) (serial : Option String) (storage_type : StorageType) (_prog_mbn : String)
    (xml_files : Nat → String) (xml_file_count : Int) (allow_missing : Bool)
    (include_dir : Option String) (out_chunk_size : Nat) : Int × σ :=
  let scripts := (List.range xml_file_count.toNat).map xml_files
  let r := session w serial storage_type scripts allow_missing include_dir out_chunk_size
  (statusOf mode r.2, forwardAll slot r.1 obs)

/-! ## A concrete world -/

/-- A script with two `program` directives of 4096 and 8192 bytes. -/
def sampleScript : Script :=
  ⟨"fw", [⟨.program, "boot", 0, 4096, some "boot.img"⟩,
          ⟨.program, "system", 4096, 8192, some "system.img"⟩]⟩

/-- One attached device that completes the handshake and accepts everything. -/
def sampleWorld : World where
  attached := [⟨"abc123", "QUSB_BULK"⟩]
  readScript := fun path => if path = "rawprogram0.xml" then some sampleScript else none
  imageExists := fun dir _ => decide (dir = "fw")
  blockSize := fun _ => 512
  defaultChunk := 4096
  deviceVanishes := fun _ => false
  programmerImage := 13
  saharaInputs := [.hello true, .readData 13, .readData 13, .endOfImage true]
  configureResponse := .ack none
  maxPayload := 1048576
  writeOk := fun _ _ => true
  respond := fun _ => .ack none

/-- The same device, except that it answers every command with a log line. -/
def talkativeWorld : World :=
  ⟨sampleWorld.attached, sampleWorld.readScript, sampleWorld.imageExists, sampleWorld.blockSize,
   sampleWorld.defaultChunk, sampleWorld.deviceVanishes, sampleWorld.programmerImage,
   sampleWorld.saharaInputs, sampleWorld.configureResponse, sampleWorld.maxPayload,
   sampleWorld.writeOk, fun _ => .ack (some "program ok")⟩

/-- A scan that finds three devices. -/
def threeDevices : List Device :=
  [⟨"abc123", "QUSB_BULK"⟩, ⟨"def456", "QUSB_BULK"⟩, ⟨"0a1b2c", "QUSB_BULK"⟩]

/-- The same device, except that it rejects the `configure` command. -/
def rejectingWorld : World :=
  ⟨sampleWorld.attached, sampleWorld.readScript, sampleWorld.imageExists, sampleWorld.blockSize,
   sampleWorld.defaultChunk, sampleWorld.deviceVanishes, sampleWorld.programmerImage,
   sampleWorld.saharaInputs, .nak false (some "configure refused"), sampleWorld.maxPayload,
   sampleWorld.writeOk, sampleWorld.respond⟩

/-! ## The declarations -/

/-- C1: the status enum `qdl_error_t` has exactly five members, with the values
QDL_OK = 0, QDL_ERR_GENERIC = -1, QDL_ERR_DEVICE_NOT_FOUND = -2,
QDL_ERR_FLASH_FAILED = -3 and QDL_ERR_PROVISION_FAILED = -4. -/
theorem qdl_error_t_members :
    enumConstants qdl_error_t =
      [("QDL_OK", 0), ("QDL_ERR_GENERIC", -1), ("QDL_ERR_DEVICE_NOT_FOUND", -2),
       ("QDL_ERR_FLASH_FAILED", -3), ("QDL_ERR_PROVISION_FAILED", -4)] ∧
    (enumConstants qdl_error_t).length = 5 ∧
    QDL_OK = 0 ∧ QDL_ERR_GENERIC = -1 ∧ QDL_ERR_DEVICE_NOT_FOUND = -2 ∧
    QDL_ERR_FLASH_FAILED = -3 ∧ QDL_ERR_PROVISION_FAILED = -4 := by
  decide

/-- C4: the record `qdl_device_info_t` has exactly the two members `serial`
and `product`, in this order, each an array of 64 `char` (so a NUL-terminated
text fits exactly when it has at most 63 bytes); `serial` lies at byte offset
0, `product` at byte offset 64, and the record has 128 bytes. -/
theorem qdl_device_info_t_layout :
    qdl_device_info_t.map Member.ident = ["serial", "product"] ∧
    qdl_device_info_t.map Member.type = [.array .char 64, .array .char 64] ∧
    qdl_device_info_t.map (fun m => m.type.sizeof) = [64, 64] ∧
    (∀ len : Nat, fitsCString len (.array .char 64) ↔ len ≤ 63) ∧
    memberOffsets qdl_device_info_t = [("serial", 0), ("product", 64)] ∧
    structSizeof qdl_device_info_t = 128 := by
  refine ⟨by decide, by decide, by decide, ?_, by decide, by decide⟩
  intro len
  simp only [fitsCString, CType.sizeof]
  omega

/-- C5: the enum `qdl_storage_type` has exactly six members, in the order
UNKNOWN, EMMC, NAND, UFS, NVME, SPINOR, with the consecutive values 0 to 5. -/
theorem qdl_storage_type_members :
    enumConstants qdl_storage_type =
      [("QDL_STORAGE_UNKNOWN", 0), ("QDL_STORAGE_EMMC", 1), ("QDL_STORAGE_NAND", 2),
       ("QDL_STORAGE_UFS", 3), ("QDL_STORAGE_NVME", 4), ("QDL_STORAGE_SPINOR", 5)] ∧
    (enumConstants qdl_storage_type).length = 6 ∧
    (enumConstants qdl_storage_type).map Prod.snd = (List.range 6).map Int.ofNat := by
  decide

/-- C9: the enum `qdl_mode_t` has exactly two members, QDL_MODE_FLASH = 0 and
QDL_MODE_PROVISION = 1, which are the constants of the two session modes. -/
theorem qdl_mode_t_members :
    enumConstants qdl_mode_t = [("QDL_MODE_FLASH", 0), ("QDL_MODE_PROVISION", 1)] ∧
    (enumConstants qdl_mode_t).length = 2 ∧
    Mode.toInt .Flash = 0 ∧ Mode.toInt .Provision = 1 ∧
    (∀ m : Mode, m = .Flash ∨ m = .Provision) := by
  refine ⟨by decide, by decide, by decide, by decide, ?_⟩
  intro m
  cases m <;> simp

/-- C10: the values of the five `qdl_error_t` members are pairwise distinct,
and for every member the value is 0 exactly when the member is QDL_OK and
negative exactly when it is not, that is, when it is one of the four error
codes. -/
theorem qdl_error_t_sign :
    ((enumConstants qdl_error_t).map Prod.snd).Nodup ∧
    ∀ c ∈ enumConstants qdl_error_t,
      (c.2 = 0 ↔ c.1 = "QDL_OK") ∧ (c.2 < 0 ↔ c.1 ≠ "QDL_OK") ∧
      (c.2 < 0 ↔ c.1 ∈ ["QDL_ERR_GENERIC", "QDL_ERR_DEVICE_NOT_FOUND",
                        "QDL_ERR_FLASH_FAILED", "QDL_ERR_PROVISION_FAILED"]) := by
  decide

/-! ## Device enumeration -/

theorem writeEntries_outside (found : List Device) :
    ∀ (start : Nat) (buf : Nat → DeviceInfo) (i : Nat),
      (i < start ∨ start + found.length ≤ i) → writeEntries found start buf i = buf i := by
  induction found with
  | nil => intro start buf i _; rfl
  | cons d ds ih =>
    intro start buf i h
    rw [writeEntries, ih (start + 1) _ i (by simp only [List.length_cons] at h; omega)]
    exact Function.update_noteq (by simp only [List.length_cons] at h; omega) _ _

theorem writeEntries_inside (found : List Device) :
    ∀ (start : Nat) (buf : Nat → DeviceInfo) (k : Nat) (h : k < found.length),
      writeEntries found start buf (start + k) = deviceInfoOf (found.get ⟨k, h⟩) := by
  induction found with
  | nil => intro start buf k h; simp at h
  | cons d ds ih =>
    intro start buf k h
    cases k with
    | zero =>
      show writeEntries ds (start + 1) (Function.update buf start (deviceInfoOf d)) start = _
      rw [writeEntries_outside ds (start + 1) _ start (Or.inl (by omega))]
      simp
    | succ k =>
      have hk : k < ds.length := by simpa using h
      have := ih (start + 1) (Function.update buf start (deviceInfoOf d)) k hk
      rw [writeEntries]
      have e : start + (k + 1) = start + 1 + k := by omega
      rw [e, this]
      rfl

/-- A stored string fills its array: whatever the text, the array holds `cap`
bytes, of which at most `cap - 1` are text. -/
theorem storeCString_length (cap : Nat) (text : List Nat) :
    (storeCString cap text).length = cap ∧ (text.take (cap - 1)).length ≤ cap - 1 := by
  have h : (text.take (cap - 1)).length ≤ cap - 1 := List.length_take_le _ _
  refine ⟨?_, h⟩
  simp only [storeCString, List.length_append, List.length_replicate]
  omega

/-- C2, as stated, fails at a negative capacity: the count is never negative
(the spec requires this), so with `max_devices = -1` the returned count, 0, is
not at most `max_devices`. -/
theorem qdl_list_devices_negative_capacity :
    (qdl_list_devices threeDevices (fun _ => default) (-1)).1 = 0 ∧
    ¬ ((qdl_list_devices threeDevices (fun _ => default) (-1)).1 ≤ -1) := by
  decide

/-- C2, amended: for every scan, output array and `max_devices ≥ 0`, the
returned count `c` satisfies `0 ≤ c ≤ max_devices` and is the number of devices
found, cut at `max_devices`; entry `i < c` holds the record of the `i`-th
device found, and every entry at index `≥ c`, in particular every entry at
index `≥ max_devices`, is left as it was. -/
theorem qdl_list_devices_bounds (scan : List Device) (devices : Nat → DeviceInfo)
    (max_devices : Int) (hcap : 0 ≤ max_devices) :
    0 ≤ (qdl_list_devices scan devices max_devices).1 ∧
    (qdl_list_devices scan devices max_devices).1 ≤ max_devices ∧
    (qdl_list_devices scan devices max_devices).1 = min max_devices (scan.length : Int) ∧
    (∀ i : Nat, (i : Int) < (qdl_list_devices scan devices max_devices).1 →
      (scan.get? i).map deviceInfoOf = some ((qdl_list_devices scan devices max_devices).2 i)) ∧
    (∀ i : Nat, (qdl_list_devices scan devices max_devices).1 ≤ (i : Int) →
      (qdl_list_devices scan devices max_devices).2 i = devices i) ∧
    (∀ i : Nat, max_devices ≤ (i : Int) →
      (qdl_list_devices scan devices max_devices).2 i = devices i) := by
  have hlen : (scan.take max_devices.toNat).length = min max_devices.toNat scan.length :=
    List.length_take _ _
  have hle : (scan.take max_devices.toNat).length ≤ max_devices.toNat := by
    rw [hlen]; exact Nat.min_le_left _ _
  have hout : ∀ i : Nat, (scan.take max_devices.toNat).length ≤ i →
      writeEntries (scan.take max_devices.toNat) 0 devices i = devices i := by
    intro i hi
    exact writeEntries_outside _ 0 devices i (Or.inr (by omega))
  simp only [qdl_list_devices]
  refine ⟨by omega, by omega, ?_, ?_, ?_, ?_⟩
  · rw [hlen]
    rcases Nat.le_total max_devices.toNat scan.length with h | h
    · rw [Nat.min_eq_left h, min_eq_left (by omega)]
      omega
    · rw [Nat.min_eq_right h, min_eq_right (by omega)]
  · intro i hi
    have hi' : i < (scan.take max_devices.toNat).length := by omega
    have h := writeEntries_inside (scan.take max_devices.toNat) 0 devices i hi'
    rw [Nat.zero_add] at h
    rw [h]
    have hs : i < scan.length :=
      lt_of_lt_of_le hi' (List.length_take_le' max_devices.toNat scan)
    rw [List.get?_eq_get hs]
    simp [List.get_eq_getElem, List.getElem_take]
  · intro i hi
    exact hout i (by omega)
  · intro i hi
    exact hout i (by omega)

/-- An instance of `qdl_list_devices_bounds`: three devices found and a
capacity of 2: the count is 2, and entry 2 is left as it was. -/
theorem qdl_list_devices_bounds_witness :
    (qdl_list_devices threeDevices (fun _ => default) 2).1 = min 2 ((3 : Nat) : Int) ∧
    (qdl_list_devices threeDevices (fun _ => default) 2).2 2 = default :=
  ⟨(qdl_list_devices_bounds threeDevices (fun _ => default) 2 (by decide)).2.2.1,
   (qdl_list_devices_bounds threeDevices (fun _ => default) 2 (by decide)).2.2.2.2.2 2
     (by decide)⟩

/-! ## Progress of one program operation -/

theorem pumpLoop_stall (task : String) (total chunk : Nat) (writeOk : Nat → Bool)
    (fuel sent : Nat) (h : min chunk (total - sent) = 0 ∧ sent < total) :
    pumpLoop task total chunk writeOk (fuel + 1) sent = ([], false) := by
  rw [pumpLoop, if_pos h]

theorem pumpLoop_refused (task : String) (total chunk : Nat) (writeOk : Nat → Bool)
    (fuel sent : Nat) (h : writeOk sent = false) :
    pumpLoop task total chunk writeOk (fuel + 1) sent = ([], false) := by
  rw [pumpLoop]
  by_cases h1 : min chunk (total - sent) = 0 ∧ sent < total
  · rw [if_pos h1]
  · rw [if_neg h1, h]
    rfl

theorem pumpLoop_last (task : String) (total chunk : Nat) (writeOk : Nat → Bool)
    (fuel sent : Nat) (h1 : ¬ (min chunk (total - sent) = 0 ∧ sent < total))
    (h2 : writeOk sent = true) (h3 : total ≤ sent + min chunk (total - sent)) :
    pumpLoop task total chunk writeOk (fuel + 1) sent =
      ([⟨task, sent + min chunk (total - sent), total⟩], true) := by
  rw [pumpLoop, if_neg h1, if_pos h2, if_pos h3]

theorem pumpLoop_more (task : String) (total chunk : Nat) (writeOk : Nat → Bool)
    (fuel sent : Nat) (h1 : ¬ (min chunk (total - sent) = 0 ∧ sent < total))
    (h2 : writeOk sent = true) (h3 : ¬ total ≤ sent + min chunk (total - sent)) :
    pumpLoop task total chunk writeOk (fuel + 1) sent =
      (⟨task, sent + min chunk (total - sent), total⟩ ::
          (pumpLoop task total chunk writeOk fuel (sent + min chunk (total - sent))).1,
        (pumpLoop task total chunk writeOk fuel (sent + min chunk (total - sent))).2) := by
  rw [pumpLoop, if_neg h1, if_pos h2, if_neg h3]

/-- Every event of the loop reports more than was sent before the loop began
(when bytes remained), at most the total, and carries the task and the total. -/
theorem pumpLoop_events (task : String) (total chunk : Nat) (writeOk : Nat → Bool) :
    ∀ (fuel sent : Nat), sent ≤ total →
      ∀ e ∈ (pumpLoop task total chunk writeOk fuel sent).1,
        (sent < total → sent < e.value) ∧ e.value ≤ total ∧ e.total = total ∧ e.task = task := by
  intro fuel
  induction fuel with
  | zero => intro sent _ e he; simp [pumpLoop] at he
  | succ fuel ih =>
    intro sent hs e he
    have hn : min chunk (total - sent) ≤ total - sent := Nat.min_le_right _ _
    by_cases h1 : min chunk (total - sent) = 0 ∧ sent < total
    · rw [pumpLoop_stall _ _ _ _ _ _ h1] at he; simp at he
    cases h2 : writeOk sent with
    | false => rw [pumpLoop_refused _ _ _ _ _ _ h2] at he; simp at he
    | true =>
      have hpos : sent < total → sent < sent + min chunk (total - sent) := by
        intro hlt
        have : min chunk (total - sent) ≠ 0 := fun h0 => h1 ⟨h0, hlt⟩
        omega
      by_cases h3 : total ≤ sent + min chunk (total - sent)
      · rw [pumpLoop_last _ _ _ _ _ _ h1 h2 h3] at he
        simp only [List.mem_singleton] at he
        subst he
        exact ⟨hpos, by show sent + min chunk (total - sent) ≤ total; omega, rfl, rfl⟩
      · rw [pumpLoop_more _ _ _ _ _ _ h1 h2 h3] at he
        simp only [List.mem_cons] at he
        rcases he with rfl | he
        · exact ⟨hpos, by show sent + min chunk (total - sent) ≤ total; omega, rfl, rfl⟩
        · have hlt' : sent + min chunk (total - sent) < total := lt_of_not_le h3
          have := ih _ (le_of_lt hlt') e he
          exact ⟨fun _ => lt_of_le_of_lt (Nat.le_add_right _ _) (this.1 hlt'), this.2⟩

theorem pumpLoop_increasing (task : String) (total chunk : Nat) (writeOk : Nat → Bool) :
    ∀ (fuel sent : Nat), sent ≤ total →
      ((pumpLoop task total chunk writeOk fuel sent).1.map ProgressEvent.value).Pairwise
        (fun a b => a < b) := by
  intro fuel
  induction fuel with
  | zero => intro sent _; simp [pumpLoop]
  | succ fuel ih =>
    intro sent hs
    by_cases h1 : min chunk (total - sent) = 0 ∧ sent < total
    · rw [pumpLoop_stall _ _ _ _ _ _ h1]; simp
    cases h2 : writeOk sent with
    | false => rw [pumpLoop_refused _ _ _ _ _ _ h2]; simp
    | true =>
      by_cases h3 : total ≤ sent + min chunk (total - sent)
      · rw [pumpLoop_last _ _ _ _ _ _ h1 h2 h3]; simp
      · rw [pumpLoop_more _ _ _ _ _ _ h1 h2 h3]
        have hlt' : sent + min chunk (total - sent) < total := lt_of_not_le h3
        simp only [List.map_cons, List.pairwise_cons, List.mem_map]
        refine ⟨?_, ih _ (le_of_lt hlt')⟩
        rintro v ⟨e, he, rfl⟩
        exact (pumpLoop_events task total chunk writeOk fuel _ (le_of_lt hlt') e he).1 hlt'

/-- A loop that sends everything reports `value == total` exactly once, by its
last event. -/
theorem pumpLoop_success (task : String) (total chunk : Nat) (writeOk : Nat → Bool) :
    ∀ (fuel sent : Nat), sent ≤ total →
      (pumpLoop task total chunk writeOk fuel sent).2 = true →
      (pumpLoop task total chunk writeOk fuel sent).1.countP
          (fun e => decide (e.value = e.total)) = 1 ∧
      (pumpLoop task total chunk writeOk fuel sent).1.getLast? = some ⟨task, total, total⟩ := by
  intro fuel
  induction fuel with
  | zero => intro sent _ h; simp [pumpLoop] at h
  | succ fuel ih =>
    intro sent hs h
    have hn : min chunk (total - sent) ≤ total - sent := Nat.min_le_right _ _
    by_cases h1 : min chunk (total - sent) = 0 ∧ sent < total
    · rw [pumpLoop_stall _ _ _ _ _ _ h1] at h; simp at h
    cases h2 : writeOk sent with
    | false => rw [pumpLoop_refused _ _ _ _ _ _ h2] at h; simp at h
    | true =>
      by_cases h3 : total ≤ sent + min chunk (total - sent)
      · have hv : sent + min chunk (total - sent) = total := by omega
        rw [pumpLoop_last _ _ _ _ _ _ h1 h2 h3, hv]
        simp
      · rw [pumpLoop_more _ _ _ _ _ _ h1 h2 h3] at h ⊢
        have hlt' : sent + min chunk (total - sent) < total := lt_of_not_le h3
        obtain ⟨hc, hl⟩ := ih _ (le_of_lt hlt') h
        obtain ⟨x, xs, hx⟩ : ∃ x xs, (pumpLoop task total chunk writeOk fuel
            (sent + min chunk (total - sent))).1 = x :: xs := by
          cases hq : (pumpLoop task total chunk writeOk fuel
            (sent + min chunk (total - sent))).1 with
          | nil => rw [hq] at hl; simp at hl
          | cons x xs => exact ⟨x, xs, rfl⟩
        refine ⟨?_, ?_⟩
        · rw [List.countP_cons, hc]
          simp only [decide_eq_true_eq]
          rw [if_neg (ne_of_lt hlt')]
        · rw [hx] at hl ⊢
          rw [List.getLast?_cons_cons]
          exact hl

/-- With a positive chunk size and no failing write the loop sends everything
within the iterations it is given. -/
theorem pumpLoop_completes (task : String) (total chunk : Nat) (writeOk : Nat → Bool)
    (hchunk : 0 < chunk) (hok : ∀ off, writeOk off = true) :
    ∀ (fuel sent : Nat), sent ≤ total → total - sent < fuel →
      (pumpLoop task total chunk writeOk fuel sent).2 = true := by
  intro fuel
  induction fuel with
  | zero => intro sent _ h; omega
  | succ fuel ih =>
    intro sent hs h
    have hmin : sent < total → 0 < min chunk (total - sent) := by
      intro hlt
      exact Nat.lt_min.mpr ⟨hchunk, by omega⟩
    have hn : min chunk (total - sent) ≤ total - sent := Nat.min_le_right _ _
    have h1 : ¬ (min chunk (total - sent) = 0 ∧ sent < total) := by
      rintro ⟨h0, hlt⟩
      have := hmin hlt
      omega
    by_cases h3 : total ≤ sent + min chunk (total - sent)
    · rw [pumpLoop_last _ _ _ _ _ _ h1 (hok sent) h3]
    · rw [pumpLoop_more _ _ _ _ _ _ h1 (hok sent) h3]
      have hlt : sent < total := by omega
      have := hmin hlt
      exact ih _ (by omega) (by omega)

/-- Events whose total fits `unsigned int` and whose value is at most the total
reach the callback unchanged. -/
theorem delivered_of_fits (total : Nat) (hsize : total < 2 ^ 32) (evs : List ProgressEvent)
    (h : ∀ e ∈ evs, e.value ≤ total ∧ e.total = total) :
    delivered evs = evs.map (fun e => (e.task, e.value, e.total)) := by
  unfold delivered
  apply List.map_congr_left
  intro e he
  obtain ⟨hv, ht⟩ := h e he
  simp only [callArgs, toUnsignedInt]
  rw [Nat.mod_eq_of_lt (by omega), Nat.mod_eq_of_lt (by omega)]

/-- The recording callback receives exactly the delivered calls, in order. -/
theorem forwardAll_recording (userdata : Nat) (evs : List ProgressEvent) :
    ∀ log : List (String × Nat × Nat × Nat),
      forwardAll (some (recordingCallback, userdata)) evs log =
        log ++ (delivered evs).map (fun d => (d.1, d.2.1, d.2.2, userdata)) := by
  induction evs with
  | nil => intro log; simp [forwardAll, delivered]
  | cons ev evs ih =>
    intro log
    rw [forwardAll, ih]
    simp [forward, recordingCallback, delivered]

theorem afterResponse_advisory (op : FlashOperation) (r : Response) :
    ∀ e ∈ (afterResponse op r).1, e.value = 0 ∧ e.total = 0 := by
  intro e he
  cases r with
  | ack log =>
    cases log with
    | none => simp [afterResponse, logEvents] at he
    | some line =>
      simp only [afterResponse, logEvents, List.mem_singleton] at he
      subst he
      exact ⟨rfl, rfl⟩
  | nak notFound log =>
    simp only [afterResponse] at he
    split_ifs at he
    · cases log with
      | none =>
        simp only [logEvents, List.nil_append, List.mem_singleton] at he
        subst he
        exact ⟨rfl, rfl⟩
      | some line =>
        simp only [logEvents, List.singleton_append, List.mem_cons, List.mem_singleton,
          List.not_mem_nil, or_false] at he
        rcases he with rfl | rfl <;> exact ⟨rfl, rfl⟩
    · cases log with
      | none => simp [logEvents] at he
      | some line =>
        simp only [logEvents, List.mem_singleton] at he
        subst he
        exact ⟨rfl, rfl⟩
  | transportError => simp [afterResponse] at he

theorem execute_program (w : World) (chunk i : Nat) (op : FlashOperation)
    (hkind : op.kind = .program) (hsend : ¬ (op.skipIfAbsent = true ∧ op.image = none)) :
    execute w chunk i op =
      if (pump op.label op.size chunk (w.writeOk i)).2 = true then
        ((pump op.label op.size chunk (w.writeOk i)).1 ++ (afterResponse op (w.respond i)).1,
          (afterResponse op (w.respond i)).2)
      else ((pump op.label op.size chunk (w.writeOk i)).1, .failed .transport) := by
  unfold execute
  rw [if_neg hsend]
  simp only [hkind]

theorem execute_skipped (w : World) (chunk i : Nat) (op : FlashOperation)
    (hskip : op.skipIfAbsent = true ∧ op.image = none) :
    execute w chunk i op = ([⟨op.label, 0, 0⟩], .skipped) := by
  unfold execute
  rw [if_pos hskip]

/-- C7, as stated, fails: the callback takes `value` and `total` as `unsigned
int`.  A `program` operation of 5 GiB sent in chunks of 1 GiB completes, and
the callback receives the pairs (1 GiB, 1 GiB), (2 GiB, 1 GiB), (3 GiB, 1 GiB),
(0, 1 GiB), (1 GiB, 1 GiB): the value exceeds the total, falls, and equals the
total twice.  (Besides, a log line of the device response reaches the callback
after the last pair of an operation, as an advisory event with value = total
= 0.) -/
theorem pump_large_operation :
    (pump "system" 5368709120 1073741824 (fun _ => true)).2 = true ∧
    forwardAll (some (recordingCallback, 7))
        (pump "system" 5368709120 1073741824 (fun _ => true)).1 [] =
      [("system", 1073741824, 1073741824, 7), ("system", 2147483648, 1073741824, 7),
       ("system", 3221225472, 1073741824, 7), ("system", 0, 1073741824, 7),
       ("system", 1073741824, 1073741824, 7)] ∧
    ¬ ((delivered (pump "system" 5368709120 1073741824 (fun _ => true)).1).map
        (fun d => d.2.1)).Pairwise (fun a b => a ≤ b) ∧
    (∃ d ∈ delivered (pump "system" 5368709120 1073741824 (fun _ => true)).1, d.2.2 < d.2.1) ∧
    (delivered (pump "system" 5368709120 1073741824 (fun _ => true)).1).countP
        (fun d => decide (d.2.1 = d.2.2)) = 2 ∧
    forwardAll (some (recordingCallback, 7))
        (execute talkativeWorld 1024 0 ⟨.program, "boot", 0, 4096, some "fw/boot.img", false⟩).1
        [] =
      [("boot", 1024, 4096, 7), ("boot", 2048, 4096, 7), ("boot", 3072, 4096, 7),
       ("boot", 4096, 4096, 7), ("program ok", 0, 0, 7)] := by
  decide

/-- C7, amended: for every `program` operation of fewer than `2 ^ 32` bytes,
the (value, total) pairs delivered to the progress callback as the progress of
the operation, one per chunk, have non-decreasing value and never a value above
the total, which is the size of the operation; when the operation completes,
`value == total` is reached exactly once, by the last of these pairs.  With a
positive chunk size, no failing write and an acknowledging device the operation
does complete.  What the callback receives while the operation is dispatched
is these pairs, followed, after the payload, by the advisory events of the
device response, whose value and total are 0; an operation that is skipped
delivers one advisory event and no progress. -/
theorem program_operation_progress (w : World) (chunk i : Nat) (op : FlashOperation)
    (hkind : op.kind = .program) (hsize : op.size < 2 ^ 32) :
    (¬ (op.skipIfAbsent = true ∧ op.image = none) →
      delivered (execute w chunk i op).1 =
        delivered (pump op.label op.size chunk (w.writeOk i)).1 ++
        delivered (if (pump op.label op.size chunk (w.writeOk i)).2 = true
          then (afterResponse op (w.respond i)).1 else [])) ∧
    ((op.skipIfAbsent = true ∧ op.image = none) →
      delivered (execute w chunk i op).1 = [(op.label, 0, 0)] ∧
      (execute w chunk i op).2 = .skipped) ∧
    (∀ d ∈ delivered (afterResponse op (w.respond i)).1, d.2.1 = 0 ∧ d.2.2 = 0) ∧
    (∀ (userdata : Nat) (log : List (String × Nat × Nat × Nat)),
      forwardAll (some (recordingCallback, userdata)) (execute w chunk i op).1 log =
        log ++ (delivered (execute w chunk i op).1).map (fun d => (d.1, d.2.1, d.2.2, userdata))) ∧
    ((delivered (pump op.label op.size chunk (w.writeOk i)).1).map (fun d => d.2.1)).Pairwise
      (fun a b => a ≤ b) ∧
    (∀ d ∈ delivered (pump op.label op.size chunk (w.writeOk i)).1,
      d.2.1 ≤ d.2.2 ∧ d.2.2 = op.size ∧ d.1 = op.label) ∧
    ((execute w chunk i op).2 = .done →
      (pump op.label op.size chunk (w.writeOk i)).2 = true) ∧
    ((pump op.label op.size chunk (w.writeOk i)).2 = true →
      (delivered (pump op.label op.size chunk (w.writeOk i)).1).countP
          (fun d => decide (d.2.1 = d.2.2)) = 1 ∧
      (delivered (pump op.label op.size chunk (w.writeOk i)).1).getLast? =
        some (op.label, op.size, op.size)) ∧
    (0 < chunk → (∀ off, w.writeOk i off = true) →
      (pump op.label op.size chunk (w.writeOk i)).2 = true ∧
      (¬ (op.skipIfAbsent = true ∧ op.image = none) →
        ∀ log, w.respond i = .ack log → (execute w chunk i op).2 = .done)) := by
  have hev := pumpLoop_events op.label op.size chunk (w.writeOk i) (op.size + 1) 0
    (Nat.zero_le _)
  have hfit : delivered (pump op.label op.size chunk (w.writeOk i)).1 =
      (pump op.label op.size chunk (w.writeOk i)).1.map (fun e => (e.task, e.value, e.total)) :=
    delivered_of_fits op.size hsize _ (fun e he => ⟨(hev e he).2.1, (hev e he).2.2.1⟩)
  have hdone : 0 < chunk → (∀ off, w.writeOk i off = true) →
      (pump op.label op.size chunk (w.writeOk i)).2 = true := fun hchunk hok =>
    pumpLoop_completes op.label op.size chunk (w.writeOk i) hchunk hok (op.size + 1) 0
      (Nat.zero_le _) (by omega)
  refine ⟨?_, ?_, ?_, ?_, ?_, ?_, ?_, ?_, ?_⟩
  · intro hsend
    rw [execute_program w chunk i op hkind hsend]
    by_cases hp : (pump op.label op.size chunk (w.writeOk i)).2 = true
    · rw [if_pos hp, if_pos hp]
      simp [delivered]
    · rw [if_neg hp, if_neg hp]
      simp [delivered]
  · intro hskip
    rw [execute_skipped w chunk i op hskip]
    exact ⟨rfl, rfl⟩
  · intro d hd
    simp only [delivered, List.mem_map] at hd
    obtain ⟨e, he, rfl⟩ := hd
    obtain ⟨hv, ht⟩ := afterResponse_advisory op (w.respond i) e he
    simp [callArgs, toUnsignedInt, hv, ht]
  · intro userdata log
    exact forwardAll_recording userdata _ log
  · rw [hfit, List.map_map]
    exact (pumpLoop_increasing op.label op.size chunk (w.writeOk i) (op.size + 1) 0
      (Nat.zero_le _)).imp (fun h => Nat.le_of_lt h)
  · intro d hd
    rw [hfit, List.mem_map] at hd
    obtain ⟨e, he, rfl⟩ := hd
    have := hev e he
    exact ⟨by show e.value ≤ e.total; omega, this.2.2.1, this.2.2.2⟩
  · intro h
    by_cases hskip : op.skipIfAbsent = true ∧ op.image = none
    · rw [execute_skipped w chunk i op hskip] at h
      exact absurd h (by simp)
    · rw [execute_program w chunk i op hkind hskip] at h
      by_cases hp : (pump op.label op.size chunk (w.writeOk i)).2 = true
      · exact hp
      · rw [if_neg hp] at h
        exact absurd h (by simp)
  · intro hp
    obtain ⟨hc, hl⟩ := pumpLoop_success op.label op.size chunk (w.writeOk i) (op.size + 1) 0
      (Nat.zero_le _) hp
    rw [hfit]
    refine ⟨?_, ?_⟩
    · rw [List.countP_map]
      exact hc
    · change ((pump op.label op.size chunk (w.writeOk i)).1.map _).getLast? = _
      rw [List.getLast?_map]
      change Option.map _ (pumpLoop op.label op.size chunk (w.writeOk i) (op.size + 1) 0).1.getLast?
        = _
      rw [hl]
      rfl
  · intro hchunk hok
    refine ⟨hdone hchunk hok, ?_⟩
    intro hsend log hlog
    rw [execute_program w chunk i op hkind hsend, if_pos (hdone hchunk hok), hlog]
    rfl

/-- An instance of `program_operation_progress`: 4096 bytes in chunks of 1024
bytes on a device that accepts everything and answers with a log line: the
operation completes, the last of its four pairs is (4096, 4096), and the only
pair with `value == total` among them. -/
theorem program_operation_progress_witness :
    (execute talkativeWorld 1024 0 ⟨.program, "boot", 0, 4096, some "fw/boot.img", false⟩).2 =
      .done ∧
    (delivered (pump "boot" 4096 1024 (talkativeWorld.writeOk 0)).1).countP
        (fun d => decide (d.2.1 = d.2.2)) = 1 ∧
    (delivered (pump "boot" 4096 1024 (talkativeWorld.writeOk 0)).1).getLast? =
      some ("boot", 4096, 4096) :=
  ⟨((program_operation_progress talkativeWorld 1024 0
      ⟨.program, "boot", 0, 4096, some "fw/boot.img", false⟩
      rfl (by decide)).2.2.2.2.2.2.2.2 (by decide) (fun _ => rfl)).2 (by decide)
        (some "program ok") rfl,
   (program_operation_progress talkativeWorld 1024 0
      ⟨.program, "boot", 0, 4096, some "fw/boot.img", false⟩
      rfl (by decide)).2.2.2.2.2.2.2.1 (by decide)⟩

/-! ## The progress registration -/

theorem forwardAll_none {σ : Type} (evs : List ProgressEvent) (obs : σ) :
    forwardAll (none : ProgressSlot σ) evs obs = obs := by
  induction evs generalizing obs with
  | nil => rfl
  | cons ev evs ih => exact ih _

/-- C6: the registration is a single optional (callback, userdata) pair.
Registering a non-NULL callback makes the pair exactly (callback, userdata),
whatever was registered before; registering NULL leaves no callback, and
afterwards every emitted event is dropped: forwarding any events, and any run,
leaves the observer unchanged. -/
theorem qdl_set_progress_callback_slot {σ : Type} :
    (∀ (cb : qdl_progress_cb_t σ) (userdata : Nat) (old : ProgressSlot σ),
      qdl_set_progress_callback (some cb) userdata old = some (cb, userdata)) ∧
    (∀ (userdata : Nat) (old : ProgressSlot σ),
      qdl_set_progress_callback none userdata old = none) ∧
    (∀ (userdata : Nat) (old : ProgressSlot σ) (evs : List ProgressEvent) (obs : σ),
      forwardAll (qdl_set_progress_callback none userdata old) evs obs = obs) ∧
    (∀ (userdata : Nat) (old : ProgressSlot σ) (w : World) (obs : σ) (mode : Mode)
        (serial : Option String) (storage_type : StorageType) (prog_mbn : String)
        (xml_files : Nat → String) (xml_file_count : Int) (allow_missing : Bool)
        (include_dir : Option String) (out_chunk_size : Nat),
      (qdl_run w (qdl_set_progress_callback none userdata old) obs mode serial storage_type
        prog_mbn xml_files xml_file_count allow_missing include_dir out_chunk_size).2 = obs) := by
  refine ⟨fun _ _ _ => rfl, fun _ _ => rfl, ?_, ?_⟩
  · intro userdata old evs obs
    exact forwardAll_none evs obs
  · intros
    exact forwardAll_none _ _

/-! ## The status of a run -/

theorem resolve_unknown (scan : List Device) (serial : String) (hserial : serial ≠ "")
    (hnone : ∀ d ∈ scan, d.serial ≠ serial) : resolve scan (some serial) = none := by
  simp only [resolve, if_neg hserial, List.find?_eq_none, decide_eq_true_eq]
  exact hnone

/-- C8: a run whose non-empty serial matches no attached device returns
QDL_ERR_DEVICE_NOT_FOUND, which is -2, emits no progress event, and so delivers
nothing to the registered callback: the observer is unchanged. -/
theorem qdl_run_unknown_serial {σ : Type} (w : World) (slot : ProgressSlot σ) (obs : σ)
    (mode : Mode) (serial : String) (storage_type : StorageType) (prog_mbn : String)
    (xml_files : Nat → String) (xml_file_count : Int) (allow_missing : Bool)
    (include_dir : Option String) (out_chunk_size : Nat)
    (hserial : serial ≠ "") (hnone : ∀ d ∈ w.attached, d.serial ≠ serial) :
    qdl_run w slot obs mode (some serial) storage_type prog_mbn xml_files xml_file_count
      allow_missing include_dir out_chunk_size = (QDL_ERR_DEVICE_NOT_FOUND, obs) ∧
    QDL_ERR_DEVICE_NOT_FOUND = -2 ∧
    (session w (some serial) storage_type ((List.range xml_file_count.toNat).map xml_files)
      allow_missing include_dir out_chunk_size).1 = [] := by
  have hs : ∀ scripts, session w (some serial) storage_type scripts allow_missing include_dir
      out_chunk_size = ([], some .deviceNotFound) := by
    intro scripts
    simp only [session, resolve_unknown w.attached serial hserial hnone]
  refine ⟨?_, by decide, ?_⟩
  · simp only [qdl_run, hs, statusOf, forwardAll]
  · rw [hs]

/-- An instance of `qdl_run_unknown_serial`: the serial "does-not-exist" with
one other device attached and a recording callback registered. -/
theorem qdl_run_unknown_serial_witness :
    qdl_run sampleWorld (some (recordingCallback, 7)) [] .Flash (some "does-not-exist") .eMMC
      "prog.mbn" (fun _ => "rawprogram0.xml") 1 false none 1024 = (-2, []) :=
  (qdl_run_unknown_serial sampleWorld (some (recordingCallback, 7)) [] .Flash "does-not-exist"
    .eMMC "prog.mbn" (fun _ => "rawprogram0.xml") 1 false none 1024
    (by decide) (by decide)).1

/-- C3: a run that ends in a protocol failure (the Sahara handshake is
rejected, the Firehose `configure` is rejected, or the dispatch of the
operations ends with a rejected directive that is not skipped) returns the
code of its mode, whichever subsystem failed: QDL_ERR_FLASH_FAILED (-3) under
QDL_MODE_FLASH and QDL_ERR_PROVISION_FAILED (-4) under QDL_MODE_PROVISION. -/
theorem qdl_run_protocol_failure {σ : Type} (w : World) (slot : ProgressSlot σ) (obs : σ)
    (mode : Mode) (serial : Option String) (storage_type : StorageType) (prog_mbn : String)
    (xml_files : Nat → String) (xml_file_count : Int) (allow_missing : Bool)
    (include_dir : Option String) (out_chunk_size : Nat)
    (dev : Device) (ops : List FlashOperation)
    (hdev : resolve w.attached serial = some dev)
    (hops : parse w storage_type allow_missing include_dir
      ((List.range xml_file_count.toNat).map xml_files) = some ops)
    (hopen : w.deviceVanishes dev = false)
    (hfail :
      saharaRun w.programmerImage .Idle w.saharaInputs = .Failed .rejected ∨
      (saharaRun w.programmerImage .Idle w.saharaInputs = .HandoffComplete ∧
        ∃ notFound log, w.configureResponse = .nak notFound log) ∨
      (saharaRun w.programmerImage .Idle w.saharaInputs = .HandoffComplete ∧
        ∃ log, w.configureResponse = .ack log ∧
          (dispatch w (effectiveChunk w out_chunk_size) 0 ops).2 = some .rejected)) :
    (∃ sub, (session w serial storage_type ((List.range xml_file_count.toNat).map xml_files)
      allow_missing include_dir out_chunk_size).2 = some (.protocol sub)) ∧
    (mode.toInt = QDL_MODE_FLASH →
      (qdl_run w slot obs mode serial storage_type prog_mbn xml_files xml_file_count
        allow_missing include_dir out_chunk_size).1 = QDL_ERR_FLASH_FAILED ∧
      (qdl_run w slot obs mode serial storage_type prog_mbn xml_files xml_file_count
        allow_missing include_dir out_chunk_size).1 = -3) ∧
    (mode.toInt = QDL_MODE_PROVISION →
      (qdl_run w slot obs mode serial storage_type prog_mbn xml_files xml_file_count
        allow_missing include_dir out_chunk_size).1 = QDL_ERR_PROVISION_FAILED ∧
      (qdl_run w slot obs mode serial storage_type prog_mbn xml_files xml_file_count
        allow_missing include_dir out_chunk_size).1 = -4) := by
  have hsub : ∃ sub, (session w serial storage_type
      ((List.range xml_file_count.toNat).map xml_files)
      allow_missing include_dir out_chunk_size).2 = some (.protocol sub) := by
    rcases hfail with h | ⟨h, notFound, log, hc⟩ | ⟨h, log, hc, hd⟩
    · exact ⟨.sahara, by simp [session, hdev, hops, hopen, h]⟩
    · exact ⟨.configure, by simp [session, hdev, hops, hopen, h, hc]⟩
    · exact ⟨.directive, by simp [session, hdev, hops, hopen, h, hc, hd, firehoseFailure]⟩
  obtain ⟨sub, hsub'⟩ := hsub
  have hstatus : (qdl_run w slot obs mode serial storage_type prog_mbn xml_files xml_file_count
      allow_missing include_dir out_chunk_size).1 = modeFailure mode := by
    simp only [qdl_run, hsub', statusOf]
  refine ⟨⟨sub, hsub'⟩, ?_, ?_⟩
  · intro hm
    cases mode with
    | Flash => exact ⟨hstatus, by rw [hstatus]; decide⟩
    | Provision => exact absurd hm (by decide)
  · intro hm
    cases mode with
    | Flash => exact absurd hm (by decide)
    | Provision => exact ⟨hstatus, by rw [hstatus]; decide⟩

/-- An instance of `qdl_run_protocol_failure`: the device rejects `configure`
under mode Provision, and the run returns -4. -/
theorem qdl_run_protocol_failure_witness :
    (qdl_run rejectingWorld (some (recordingCallback, 7)) [] .Provision none .eMMC "prog.mbn"
      (fun _ => "rawprogram0.xml") 1 false none 1024).1 = -4 :=
  ((qdl_run_protocol_failure rejectingWorld (some (recordingCallback, 7)) [] .Provision none
    .eMMC "prog.mbn" (fun _ => "rawprogram0.xml") 1 false none 1024
    ⟨"abc123", "QUSB_BULK"⟩
    [⟨.program, "boot", 0, 4096, some "fw/boot.img", false⟩,
     ⟨.program, "system", 4096, 8192, some "fw/system.img", false⟩]
    (by decide) (by decide) (by decide)
    (Or.inr (Or.inl ⟨by decide, false, some "configure refused", rfl⟩))).2.2 (by decide)).2

/-! ## Scenarios -/

/-- Two `program` directives of 4096 and 8192 bytes with a chunk size of 1024:
four events for the first, eight for the second, status QDL_OK. -/
theorem scenario_two_program_directives :
    qdl_run sampleWorld (some (recordingCallback, 7)) [] .Flash none .eMMC "prog.mbn"
      (fun _ => "rawprogram0.xml") 1 false none 1024 =
    (0, [("boot", 1024, 4096, 7), ("boot", 2048, 4096, 7), ("boot", 3072, 4096, 7),
         ("boot", 4096, 4096, 7), ("system", 1024, 8192, 7), ("system", 2048, 8192, 7),
         ("system", 3072, 8192, 7), ("system", 4096, 8192, 7), ("system", 5120, 8192, 7),
         ("system", 6144, 8192, 7), ("system", 7168, 8192, 7), ("system", 8192, 8192, 7)]) := by
  decide

end QdlBridge
